import Mathlib

/-!
Verification of the Markdown-to-Org converter `trilium-md2org.py` against its
natural-language specification.

The Python source is shallowly embedded: Python values appearing in metadata
dictionaries become the inductive type `PyVal`; `pathlib.Path` becomes
`PyPath`; the filesystem is a list of existing file-path strings; side effects
(directory creation, file copies, log lines, console prints) are reified as an
explicit `Effect` list.  External collaborators (PyYAML's `safe_load`, the MD5
hex digest) are passed in as function parameters, because their code is not
part of this repository; the regular-expression scanning that the repository
itself performs is embedded faithfully, including the backtracking order
(greedy `\s*`, lazy `.*?`) of the concrete patterns the source uses.
-/

/-- Python values that can appear in a metadata mapping: `None`, booleans,
integers, strings, `datetime` values (modelled to second precision, matching
the `%Y-%m-%d %H:%M:%S` rendering in the source), lists, and string-keyed
dictionaries (YAML front matter keys are strings; a non-string key would
compare unequal to every default key and behaves like an unknown key). -/
inductive PyVal where
  | pynone : PyVal
  | pybool : Bool → PyVal
  | pyint : Int → PyVal
  | pystr : String → PyVal
  | pydatetime : Nat → Nat → Nat → Nat → Nat → Nat → PyVal
  | pylist : List PyVal → PyVal
  | pydict : List (String × PyVal) → PyVal

/-- Zero-padded two-digit rendering used by `strftime` fields. -/
def pad2 (n : Nat) : String :=
  if n < 10 then "0" ++ toString n else toString n

/-- Zero-padded four-digit rendering of the year for `%Y`. -/
def pad4 (n : Nat) : String :=
  if n < 10 then "000" ++ toString n
  else if n < 100 then "00" ++ toString n
  else if n < 1000 then "0" ++ toString n
  else toString n

/-- Rendering of a datetime by `strftime("%Y-%m-%d %H:%M:%S")` (line 117 of
the source).  `str(datetime)` with zero microseconds produces the same text,
so the model uses one rendering for both. -/
def dtStrftime (y mo d h mi s : Nat) : String :=
  pad4 y ++ "-" ++ pad2 mo ++ "-" ++ pad2 d ++ " " ++
    pad2 h ++ ":" ++ pad2 mi ++ ":" ++ pad2 s

mutual

/-- Python `repr` of a value, used for elements of containers by `str`.
String escaping inside `repr` is not modelled (no theorem below evaluates
`repr` on a string containing quotes). -/
def pyRepr : PyVal → String
  | PyVal.pynone => "None"
  | PyVal.pybool true => "True"
  | PyVal.pybool false => "False"
  | PyVal.pyint n => toString n
  | PyVal.pystr s => "'" ++ s ++ "'"
  | PyVal.pydatetime y mo d h mi s =>
      "datetime.datetime(" ++ toString y ++ ", " ++ toString mo ++ ", " ++
        toString d ++ ", " ++ toString h ++ ", " ++ toString mi ++ ", " ++
        toString s ++ ")"
  | PyVal.pylist vs => "[" ++ String.intercalate ", " (pyReprList vs) ++ "]"
  | PyVal.pydict kvs => "\x7b" ++ String.intercalate ", " (pyReprDict kvs) ++ "\x7d"

/-- Helper of `pyRepr` for list elements. -/
def pyReprList : List PyVal → List String
  | [] => []
  | v :: vs => pyRepr v :: pyReprList vs

/-- Helper of `pyRepr` for dictionary items. -/
def pyReprDict : List (String × PyVal) → List String
  | [] => []
  | kv :: kvs => ("'" ++ kv.1 ++ "': " ++ pyRepr kv.2) :: pyReprDict kvs

end

/-- Python `str` of a value: strings render as themselves, datetimes in
`YYYY-MM-DD HH:MM:SS` form, containers via `repr` of their elements. -/
def pyStr : PyVal → String
  | PyVal.pystr s => s
  | PyVal.pydatetime y mo d h mi s => dtStrftime y mo d h mi s
  | v => pyRepr v

/-- Python truthiness of a value (`bool(v)`). -/
def pyTruthy : PyVal → Bool
  | PyVal.pynone => false
  | PyVal.pybool b => b
  | PyVal.pyint n => n ≠ 0
  | PyVal.pystr s => s ≠ ""
  | PyVal.pydatetime _ _ _ _ _ _ => true
  | PyVal.pylist vs => ! vs.isEmpty
  | PyVal.pydict kvs => ! kvs.isEmpty

/-- Test for `value is None`. -/
def isNoneVal : PyVal → Bool
  | PyVal.pynone => true
  | _ => false

/-- Test for `isinstance(value, list)` (the source never builds tuples, so
`isinstance(value, (list, tuple))` coincides with this on modelled values). -/
def isListVal : PyVal → Bool
  | PyVal.pylist _ => true
  | _ => false

/-- Test for `isinstance(value, dict)`. -/
def isDictVal : PyVal → Bool
  | PyVal.pydict _ => true
  | _ => false

/-- Test for `isinstance(value, datetime)`. -/
def isDatetimeVal : PyVal → Bool
  | PyVal.pydatetime _ _ _ _ _ _ => true
  | _ => false

/-- Reified side effects of the pipeline: `Path.mkdir(parents=True,
exist_ok=True)`, `shutil.copy2`, the three logger levels, and `print`. -/
inductive Effect where
  | mkdirP : String → Effect
  | copy2 : String → String → Effect
  | logInfo : String → Effect
  | logWarn : String → Effect
  | logError : String → Effect
  | print : String → Effect
deriving DecidableEq

/-- Model of `pathlib.PurePosixPath`: an absolute flag plus the list of path
components (`Path.parts` without the leading `/`).  Parsing drops empty and
`.` components, as pathlib does. -/
structure PyPath where
  absolute : Bool
  parts : List String
deriving DecidableEq

/-- Split a list at every occurrence of a separator character. -/
def splitListOn (sep : Char) : List Char → List (List Char)
  | [] => [[]]
  | c :: cs =>
    let r := splitListOn sep cs
    if c = sep then [] :: r
    else
      match r with
      | [] => [[c]]
      | h :: t => (c :: h) :: t

/-- Path components of a string: split on `/`, dropping empty and `.`
segments (pathlib's normalisation; `..` is kept, as pathlib keeps it). -/
def splitPath (s : String) : List String :=
  ((splitListOn '/' s.toList).map (fun l => String.mk l)).filter
    (fun c => c ≠ "" && c ≠ ".")

/-- `Path(s)`. -/
def pathParse (s : String) : PyPath :=
  { absolute := s.toList.headD ' ' = '/',
    parts := splitPath s }

/-- `str(path)`: `/`-joined components; the empty relative path renders as
`.` as in pathlib. -/
def pathStr (p : PyPath) : String :=
  if p.absolute then "/" ++ String.intercalate "/" p.parts
  else if p.parts = [] then "." else String.intercalate "/" p.parts

/-- `path.parent`. -/
def PyPath.parent (p : PyPath) : PyPath :=
  { p with parts := p.parts.dropLast }

/-- `path.name`: the final component, `""` when there is none. -/
def PyPath.name (p : PyPath) : String :=
  p.parts.getLastD ""

/-- `path / s`: joining with a string; an absolute right operand replaces the
left one, as in pathlib. -/
def PyPath.joinStr (p : PyPath) (s : String) : PyPath :=
  let q := pathParse s
  if q.absolute then q else { absolute := p.absolute, parts := p.parts ++ q.parts }

/-- `path.relative_to(base)`: drops the base prefix, or raises `ValueError`
(modelled as `Except.error`) when `base` is not a prefix. -/
def PyPath.relativeTo (p base : PyPath) : Except String PyPath :=
  if (p.absolute = base.absolute) ∧ base.parts.isPrefixOf p.parts then
    Except.ok { absolute := false, parts := p.parts.drop base.parts.length }
  else
    Except.error ("ValueError: " ++ pathStr p ++ " is not in the subpath of " ++ pathStr base)

/-- The filesystem as the set of existing regular files; `path.is_file()` is
membership of the rendered path. -/
def isFile (fs : List String) (p : PyPath) : Bool :=
  fs.contains (pathStr p)

/-- Value of an ASCII hex digit, by code point: `0`-`9` are 48-57, `a`-`f`
are 97-102 (value 10 + point - 97 = point - 87), `A`-`F` are 65-70. -/
def hexDigitVal (c : Char) : Option Nat :=
  let n := c.toNat
  if 48 ≤ n ∧ n ≤ 57 then some (n - 48)
  else if 97 ≤ n ∧ n ≤ 102 then some (n - 87)
  else if 65 ≤ n ∧ n ≤ 70 then some (n - 55)
  else Option.none

/-- Percent-decoding of `urllib.parse.unquote` on the character level: a `%`
followed by two hex digits becomes the decoded byte, anything else is kept
(multi-byte UTF-8 percent sequences are not modelled; every input below is
ASCII). -/
def unquoteList : List Char → List Char
  | '%' :: a :: b :: rest =>
    (match hexDigitVal a, hexDigitVal b with
     | some hi, some lo => Char.ofNat (16 * hi + lo) :: unquoteList rest
     | _, _ => '%' :: unquoteList (a :: b :: rest))
  | c :: rest => c :: unquoteList rest
  | [] => []

/-- `urllib.parse.unquote` on strings. -/
def unquote (s : String) : String :=
  String.mk (unquoteList s.toList)

/-- Python `\s` (ASCII range; the Unicode extras never occur in the inputs
considered here). -/
def isSpaceChar (c : Char) : Bool :=
  c = ' ' || c = '\t' || c = '\n' || c = '\r' || c = '\x0b' || c = '\x0c'

/-- Length of the maximal whitespace run at the head of the list. -/
def wsRunLen : List Char → Nat
  | [] => 0
  | c :: cs => if isSpaceChar c then wsRunLen cs + 1 else 0

/-- Boolean prefix test on character lists. -/
def startsWithL : List Char → List Char → Bool
  | [], _ => true
  | _ :: _, [] => false
  | p :: ps, c :: cs => (p = c) && startsWithL ps cs

/-- Boolean substring test on character lists. -/
def containsSub (pat : List Char) : List Char → Bool
  | [] => startsWithL pat []
  | c :: cs => startsWithL pat (c :: cs) || containsSub pat cs

/-- Largest index `i < bound` with `l[i] = '\n'`, if any. -/
def lastNlBelow (l : List Char) : Nat → Option Nat
  | 0 => Option.none
  | Nat.succ r => if l.getD r ' ' = '\n' then some r else lastNlBelow l r

/-- Number of characters consumed by a greedy `\s*\n` at the head of `l`:
the run of whitespace up to and including its last newline (the greedy `\s*`
backtracks from the full whitespace run until the next character is `\n`). -/
def greedyWsNl (l : List Char) : Option Nat :=
  match lastNlBelow l (wsRunLen l) with
  | some i => some (i + 1)
  | Option.none => Option.none

/-- Attempt to match the closing `\n---\s*\n` of the front-matter pattern at
the head of `l`; on success returns the text after the whole match. -/
def closeHere (l : List Char) : Option (List Char) :=
  if startsWithL [ '\n', '-', '-', '-' ] l then
    (greedyWsNl (l.drop 4)).map (fun k => (l.drop 4).drop k)
  else Option.none

/-- The lazy `(.*?)` of the front-matter pattern (DOTALL, so it may cross
newlines): grow the group one character at a time, trying the closing
delimiter at each position, shortest group first.  Returns the group and the
text after the closing delimiter. -/
def lazyClose (acc : List Char) : List Char → Option (List Char × List Char)
  | [] => Option.none
  | c :: cs =>
    match closeHere (c :: cs) with
    | some rest => some (acc.reverse, rest)
    | Option.none => lazyClose (c :: acc) cs

/-- The leading greedy `\s*\n` after the opening `---`: candidate newline
positions inside the whitespace run are tried from the largest down (greedy
first), and for each the rest of the pattern is attempted via `lazyClose`. -/
def tryFirstWs (l : List Char) : Nat → Option (List Char × List Char)
  | 0 => Option.none
  | Nat.succ i =>
    match (if l.getD i ' ' = '\n' then lazyClose [] (l.drop (i + 1)) else Option.none) with
    | some r => some r
    | Option.none => tryFirstWs l i

/-- `re.compile(r'^---\s*\n(.*?)\n---\s*\n', re.DOTALL).match(text)` (line 79
of the source): on success returns `(group(1), text[match.end():])`. -/
def yamlMatch (text : List Char) : Option (List Char × List Char) :=
  match text with
  | '-' :: '-' :: '-' :: rest => tryFirstWs rest (wsRunLen rest)
  | _ => Option.none

/-- String-level wrapper of `yamlMatch`. -/
def yamlMatchS (text : String) : Option (String × String) :=
  match yamlMatch text.toList with
  | some (g, rest) => some (String.mk g, String.mk rest)
  | Option.none => Option.none

/-- The body of the `try` of `extract_metadata` (lines 85-93) after the
parse outcome is known: a `YAMLError` is caught, logged as a warning, and
`({}, original_text)` is returned; a falsy parse result becomes the empty
dict (`or {}`, line 86); a non-dict result is wrapped as
`{'content': str(metadata)}` (line 88); `rest` is `text[match.end():]`. -/
def extractAfter (outcome : Except String PyVal) (text rest : String) :
    List (String × PyVal) × String × List Effect :=
  match outcome with
  | Except.error e => ([], text, [Effect.logWarn ("YAML parsing error: " ++ e)])
  | Except.ok v =>
    let v := if pyTruthy v then v else PyVal.pydict []
    match v with
    | PyVal.pydict kvs => (kvs, rest, [])
    | w => ([("content", PyVal.pystr (pyStr w))], rest, [])

/-- Embedding of `extract_metadata` (lines 69-93).  The PyYAML call
`yaml.safe_load` is an external collaborator and is passed in as `parse`; a
`YAMLError` is its `Except.error` case.  Returns the metadata dictionary, the
remaining content, and the log lines emitted. -/
def extract_metadata (parse : String → Except String PyVal) (text : String) :
    List (String × PyVal) × String × List Effect :=
  match yamlMatchS text with
  | Option.none => ([], text, [])
  | some (g, rest) => extractAfter (parse g) text rest

/-- Lookup in an insertion-ordered dictionary (`key in d` / `d[key]`). -/
def lookupAssoc : List (String × PyVal) → String → Option PyVal
  | [], _ => Option.none
  | (k, v) :: rest, key => if k = key then some v else lookupAssoc rest key

/-- Assignment `d[key] = value` to an existing key: the entry keeps its
position, as in a Python dict. -/
def updateAssoc : List (String × PyVal) → String → PyVal → List (String × PyVal)
  | [], _, _ => []
  | (k, v) :: rest, key, value =>
    if k = key then (k, value) :: updateAssoc rest key value
    else (k, v) :: updateAssoc rest key value

/-- The module-level `DEFAULT_METADATA` dictionary (lines 25-31). -/
def DEFAULT_METADATA : List (String × PyVal) :=
  [("title", PyVal.pystr ""), ("created", PyVal.pystr ""),
   ("modified", PyVal.pystr ""), ("type", PyVal.pystr "note"),
   ("tags", PyVal.pylist [])]

/-- The per-field coercion of `ensure_metadata` (lines 64-65): a non-list
value assigned to a key whose current value is a list is wrapped into a
singleton list, or the empty list when the value is falsy. -/
def coerceField (cur value : PyVal) : PyVal :=
  if isListVal cur && ! isListVal value then
    (if pyTruthy value then PyVal.pylist [value] else PyVal.pylist [])
  else value

/-- One iteration of the `ensure_metadata` loop (lines 62-66) over the item
`kv`: keys not present in the accumulated dictionary are dropped. -/
def ensureStep (acc : List (String × PyVal)) (kv : String × PyVal) : List (String × PyVal) :=
  match lookupAssoc acc kv.1 with
  | Option.none => acc
  | some cur => updateAssoc acc kv.1 (coerceField cur kv.2)

/-- Embedding of `ensure_metadata` (lines 49-67): start from a copy of the
defaults and fold the input items over it; a non-dict input contributes
nothing. -/
def ensure_metadata (metadata : PyVal) : List (String × PyVal) :=
  match metadata with
  | PyVal.pydict kvs => kvs.foldl ensureStep DEFAULT_METADATA
  | _ => DEFAULT_METADATA

/-- Key rendering of `format_org_metadata` (line 122):
`str(key).upper().replace(' ', '_')`. -/
def orgKey (key : String) : String :=
  String.mk (key.toList.map (fun c =>
    let u := Char.toUpper c
    if u = ' ' then '_' else u))

/-- Value rendering inside the `try` of `format_org_metadata` (lines
114-119): lists are joined by single spaces with `None` elements dropped,
datetimes use `strftime`, everything else uses `str`. -/
def fmtValue : PyVal → String
  | PyVal.pylist vs => String.intercalate " " ((vs.filter (fun v => ! isNoneVal v)).map pyStr)
  | PyVal.pydatetime y mo d h mi s => dtStrftime y mo d h mi s
  | w => pyStr w

/-- Contribution of one dictionary item to the `lines` list of
`format_org_metadata` (lines 109-123): `None` values are skipped, and so are
items whose key or rendered value is falsy (empty). -/
def orgLine (kv : String × PyVal) : Option String :=
  if isNoneVal kv.2 then Option.none
  else
    let value := fmtValue kv.2
    if kv.1 ≠ "" && value ≠ "" then some (":" ++ orgKey kv.1 ++ ": " ++ value)
    else Option.none

/-- Embedding of `format_org_metadata` (lines 95-128): builds the `lines`
list by the source's fold and joins with newlines; a non-dict argument
yields the empty string.  The modelled value rendering is total, so the
per-field `except` branch (line 124) is unreachable in the model. -/
def format_org_metadata (metadata : PyVal) : String :=
  match metadata with
  | PyVal.pydict kvs =>
    let lines := kvs.foldl (fun lines kv =>
      match orgLine kv with
      | some s => lines ++ [s]
      | Option.none => lines) [":PROPERTIES:"]
    String.intercalate "\n" (lines ++ [":END:\n"])
  | _ => ""

/-- Rendering of one value as the spec's §4.5 words it: list values joined
by single spaces with null elements dropped, date values rendered as
`YYYY-MM-DD HH:MM:SS`, all other values via their default string form. -/
def specRenderValue : PyVal → String
  | PyVal.pylist vs =>
      String.intercalate " " (vs.filterMap (fun v =>
        if isNoneVal v then Option.none else some (pyStr v)))
  | PyVal.pydatetime y mo d h mi s =>
      pad4 y ++ "-" ++ pad2 mo ++ "-" ++ pad2 d ++ " " ++
        pad2 h ++ ":" ++ pad2 mi ++ ":" ++ pad2 s
  | w => pyStr w

/-- One line of the properties block as the spec's §4.5 words it: one line
per non-null key rendered as `:KEY: value` with the key upper-cased and
spaces replaced by underscores; keys or values that render empty are
skipped. -/
def specPropertyLine (key : String) (value : PyVal) : Option String :=
  if isNoneVal value then Option.none
  else
    let k := orgKey key
    let v := specRenderValue value
    if k = "" || v = "" then Option.none
    else some (":" ++ k ++ ": " ++ v)

/-- The running progress line printed by `main` (line 272). -/
def progressMsg (succ total : Nat) : String :=
  "Progress: " ++ toString succ ++ "/" ++ toString total ++ " files processed"

/-- Embedding of the per-file loop of `main` (lines 265-275).  The body of
one iteration is abstracted to its outcome: `Except.error e` is an exception
escaping the body (caught by the loop's `except`, which logs and continues),
`Except.ok b` is `convert_file` returning `b`.  The success counter is
incremented, and the progress line printed, only in the `ok true` case,
because the `print` sits inside `if convert_file(...)`. -/
def driverLoop (total : Nat) : Nat → List (Except String Bool) → Nat × List Effect
  | succ, [] => (succ, [])
  | succ, oc :: rest =>
    match oc with
    | Except.error e =>
      let r := driverLoop total succ rest
      (r.1, Effect.logError ("Error processing " ++ e) :: r.2)
    | Except.ok true =>
      let r := driverLoop total (succ + 1) rest
      (r.1, Effect.print (progressMsg (succ + 1) total) :: r.2)
    | Except.ok false => driverLoop total succ rest

/-- Console lines printed among a list of effects. -/
def printedLines (effs : List Effect) : List String :=
  effs.filterMap (fun e =>
    match e with
    | Effect.print s => some s
    | _ => Option.none)

/-- Outcome test used to count successful files. -/
def isOkTrue (oc : Except String Bool) : Bool :=
  match oc with
  | Except.ok true => true
  | _ => false

/-- The usage message of the `__main__` guard (line 291). -/
def usageMsg : String :=
  "Usage: python trilium-md2org.py <source_directory> <destination_directory>"

/-- Embedding of the `__main__` guard (lines 289-294): with an argument
vector of length other than 3 (program name plus two positional arguments)
the usage message is printed and the process exits with status 1; otherwise
`main` runs (modelled as `none` here). -/
def mainGuard (argv : List String) : Option (List Effect × Nat) :=
  if argv.length ≠ 3 then some ([Effect.print usageMsg], 1) else Option.none

/-- Embedding of the opening checks of `main` (lines 243-261): `src` and
`dst` stand for the resolved directory strings, `isDirSrc` models
`src.is_dir()`, and `mdFiles` models the recursive `*.md` listing.  Returns
the effects performed and `some code` when `sys.exit(code)` is reached
(`SystemExit` is not an `Exception`, so the surrounding `try` does not catch
it); `none` means processing continues. -/
def mainChecks (src dst : String) (isDirSrc : Bool) (mdFiles : List String) :
    List Effect × Option Nat :=
  if ! isDirSrc then
    ([Effect.logError ("Source directory not found: " ++ src)], some 1)
  else
    let effs := [Effect.mkdirP dst]
    if mdFiles.length = 0 then
      (effs ++ [Effect.logWarn ("No markdown files found in " ++ src)], some 0)
    else
      (effs ++ [Effect.logInfo ("Found " ++ toString mdFiles.length ++
        " markdown files to process")], Option.none)

/-- A regular-expression match object: the full matched text (`group(0)`)
and the captured groups (`groups()`, `None` for an unmatched optional
group). -/
structure ReMatch where
  group0 : String
  groups : List (Option String)
deriving DecidableEq

/-- Lazy second group of `!\[(.*?)\]\((.*?)\)`: the shortest run of
non-newline characters up to the next `)`. -/
def bangPath (acc : List Char) : List Char → Option (String × List Char)
  | [] => Option.none
  | c :: cs =>
    if c = ')' then some (String.mk acc.reverse, cs)
    else if c = '\n' then Option.none
    else bangPath (c :: acc) cs

/-- Lazy first group of `!\[(.*?)\]\((.*?)\)`: at each position try the
literal `](` followed by the path group, and otherwise grow the alt text by
one non-newline character (the regex engine's backtracking order). -/
def bangAlt (acc : List Char) : List Char → Option (ReMatch × List Char)
  | [] => Option.none
  | c :: cs =>
    let firstTry : Option (ReMatch × List Char) :=
      if c = ']' then
        match cs with
        | '(' :: rest =>
          (match bangPath [] rest with
           | some (p, rem) =>
             let alt := String.mk acc.reverse
             some ({ group0 := "![" ++ alt ++ "](" ++ p ++ ")",
                     groups := [some alt, some p] }, rem)
           | Option.none => Option.none)
        | _ => Option.none
      else Option.none
    match firstTry with
    | some r => some r
    | Option.none => if c = '\n' then Option.none else bangAlt (c :: acc) cs

/-- Anchored matcher for the first image pattern `!\[(.*?)\]\((.*?)\)`
(line 144). -/
def matchBang : List Char → Option (ReMatch × List Char)
  | '!' :: '[' :: rest => bangAlt [] rest
  | _ => Option.none

/-- Quote characters of the `['\"]` classes in the `<img>` pattern. -/
def isQuote (c : Char) : Bool :=
  c = '\'' || c = '"'

/-- The trailing lazy `.*?>` of the `<img>` pattern: the shortest run of
non-newline characters up to the next `>`.  Returns the consumed characters
(including the `>`) and the rest. -/
def lazyToGt (acc : List Char) : List Char → Option (List Char × List Char)
  | [] => Option.none
  | c :: cs =>
    if c = '>' then some ((c :: acc).reverse, cs)
    else if c = '\n' then Option.none
    else lazyToGt (c :: acc) cs

/-- Anchored matcher for the second image pattern
`<img\s+src=['\"]([^'\"]+)['\"].*?>` (line 145).  After `<img` the greedy
`\s+` is forced to the whole whitespace run (whitespace never begins
`src=`), the `[^'\"]+` group is forced to the maximal quote-free run, and
`.*?>` is lazy. -/
def matchImgTag : List Char → Option (ReMatch × List Char)
  | '<' :: 'i' :: 'm' :: 'g' :: rest =>
    let n := wsRunLen rest
    if n = 0 then Option.none
    else
      match rest.drop n with
      | 's' :: 'r' :: 'c' :: '=' :: q1 :: rest2 =>
        if isQuote q1 then
          let body := rest2.takeWhile (fun c => ! isQuote c)
          if body.isEmpty then Option.none
          else
            match rest2.drop body.length with
            | q2 :: rest3 =>
              if isQuote q2 then
                match lazyToGt [] rest3 with
                | some (tailChars, rem) =>
                  some ({ group0 := String.mk ([ '<', 'i', 'm', 'g' ] ++ rest.take n ++
                            [ 's', 'r', 'c', '=', q1 ] ++ body ++ [q2] ++ tailChars),
                          groups := [some (String.mk body)] }, rem)
                | Option.none => Option.none
              else Option.none
            | [] => Option.none
        else Option.none
      | _ => Option.none
  | _ => Option.none

/-- The extension group of the wiki pattern: the greedy `[^\]]+` backtracks
from the longest split, so the shortest suffix of the form `.ext` wins; the
three-letter extensions (larger path part) are therefore tried before
`jpeg`, and the part before the dot must be nonempty. -/
def wikiExtOf (r : List Char) : Option (List Char) :=
  if [ '.', 'p', 'n', 'g' ].isSuffixOf r && r.length ≥ 5 then some [ 'p', 'n', 'g' ]
  else if [ '.', 'j', 'p', 'g' ].isSuffixOf r && r.length ≥ 5 then some [ 'j', 'p', 'g' ]
  else if [ '.', 'g', 'i', 'f' ].isSuffixOf r && r.length ≥ 5 then some [ 'g', 'i', 'f' ]
  else if [ '.', 's', 'v', 'g' ].isSuffixOf r && r.length ≥ 5 then some [ 's', 'v', 'g' ]
  else if [ '.', 'j', 'p', 'e', 'g' ].isSuffixOf r && r.length ≥ 6 then some [ 'j', 'p', 'e', 'g' ]
  else Option.none

/-- Body of the wiki pattern after the optional `file:` prefix: the
`[^\]]+\.(png|jpg|jpeg|gif|svg)` region must run exactly up to a closing
`]]`.  `pre` is the captured optional prefix group, `g0pre` its characters
for reconstructing `group(0)`. -/
def wikiBody (l : List Char) (pre : Option String) (g0pre : List Char) :
    Option (ReMatch × List Char) :=
  let r := l.takeWhile (fun c => c ≠ ']')
  match l.drop r.length with
  | ']' :: ']' :: rest =>
    (match wikiExtOf r with
     | some ext =>
       some ({ group0 := String.mk ([ '[', '[' ] ++ g0pre ++ r ++ [ ']', ']' ]),
               groups := [pre, some (String.mk r), some (String.mk ext)] }, rest)
     | Option.none => Option.none)
  | _ => Option.none

/-- Anchored matcher for the third image pattern
`\[\[(file:)?([^\]]+\.(png|jpg|jpeg|gif|svg))\]\]` (line 146).  The greedy
optional `(file:)?` is tried with the prefix first; on failure the `file:`
characters fall into the path group. -/
def matchWiki : List Char → Option (ReMatch × List Char)
  | '[' :: '[' :: rest =>
    let withPre :=
      match rest with
      | 'f' :: 'i' :: 'l' :: 'e' :: ':' :: rest2 =>
        wikiBody rest2 (some "file:") [ 'f', 'i', 'l', 'e', ':' ]
      | _ => Option.none
    (match withPre with
     | some x => some x
     | Option.none => wikiBody rest Option.none [])
  | _ => Option.none

/-- `re.sub(pattern, repl, text)` with a function replacement: scan left to
right, try the anchored matcher at each position, splice in the replacement
on a match and continue after it.  All three patterns match at least two
characters, so fuel `l.length` suffices. -/
def reSubGo (matchAt : List Char → Option (ReMatch × List Char))
    (repl : ReMatch → String × List Effect) : Nat → List Char → String × List Effect
  | 0, l => (String.mk l, [])
  | Nat.succ fuel, l =>
    match matchAt l with
    | some (m, rest) =>
      let r := repl m
      let t := reSubGo matchAt repl fuel rest
      (r.1 ++ t.1, r.2 ++ t.2)
    | Option.none =>
      match l with
      | [] => ("", [])
      | c :: cs =>
        let t := reSubGo matchAt repl fuel cs
        (String.mk [c] ++ t.1, t.2)

/-- String-level `re.sub` with a function replacement. -/
def reSub (matchAt : List Char → Option (ReMatch × List Char))
    (repl : ReMatch → String × List Effect) (s : String) : String × List Effect :=
  reSubGo matchAt repl s.toList.length s.toList

/-- The `(alt_text, img_path)` selection of `process_image` (lines 151-155):
with exactly two groups they are unpacked in order; otherwise `group(1)` —
the FIRST capture group — is taken as the path and the alt text is empty.
Returns the raw path (before percent-decoding) and the rendered alt text
(`None` renders as `"None"` inside an f-string). -/
def imgPathSel (m : ReMatch) : Option String × String :=
  if m.groups.length = 2 then
    (m.groups.getD 1 Option.none,
     match m.groups.getD 0 Option.none with
     | some a => a
     | Option.none => "None")
  else
    (m.groups.headD Option.none, "")

/-- Path resolution of `process_image` (lines 157-160): percent-decode, and
resolve against the source document's parent directory when not absolute. -/
def resolveImg (mdPath : PyPath) (raw : String) : PyPath :=
  let dec := unquote raw
  let q := pathParse dec
  if q.absolute then q else (PyPath.parent mdPath).joinStr dec

/-- Take the first `n` characters of a string (Python slicing `[:n]` by code
point). -/
def strTake (s : String) (n : Nat) : String :=
  String.mk (s.toList.take n)

/-- The destination filename computed at lines 163-164:
`{md5(str(img_source)).hexdigest()[:8]}_{img_source.name}`.  It is a
function of the resolved source path string alone — not of the file's
bytes. -/
def imageDestName (hexd : String → String) (src : PyPath) : String :=
  strTake (hexd (pathStr src)) 8 ++ "_" ++ src.name

/-- The `img_source.is_file()` branch of `process_image` (lines 157-175)
for a selected raw path `raw` and alt text `alt`: resolve the path; when the
resolved source exists, make the image directory, copy the file, log, and
rewrite to `[[file:REL][alt]]` — unless `relative_to` raises `ValueError`,
which the callback's `except` catches after the copy already happened, so
the effects persist and the original text is returned; when the resolved
source does not exist, warn and return the original text. -/
def processFound (hexd : String → String) (fs : List String)
    (mdPath orgPath imageDir : PyPath) (m : ReMatch) (raw alt : String) :
    String × List Effect :=
  if isFile fs (resolveImg mdPath raw) then
    match (imageDir.joinStr (imageDestName hexd (resolveImg mdPath raw))).relativeTo
        orgPath.parent with
    | Except.ok rel =>
      ("[[file:" ++ pathStr rel ++ "][" ++ alt ++ "]]",
       [Effect.mkdirP (pathStr imageDir),
        Effect.copy2 (pathStr (resolveImg mdPath raw))
          (pathStr (imageDir.joinStr (imageDestName hexd (resolveImg mdPath raw)))),
        Effect.logInfo ("Copied image: " ++ pathStr (resolveImg mdPath raw) ++ " -> " ++
          pathStr (imageDir.joinStr (imageDestName hexd (resolveImg mdPath raw))))])
    | Except.error e =>
      (m.group0,
       [Effect.mkdirP (pathStr imageDir),
        Effect.copy2 (pathStr (resolveImg mdPath raw))
          (pathStr (imageDir.joinStr (imageDestName hexd (resolveImg mdPath raw)))),
        Effect.logInfo ("Copied image: " ++ pathStr (resolveImg mdPath raw) ++ " -> " ++
          pathStr (imageDir.joinStr (imageDestName hexd (resolveImg mdPath raw)))),
        Effect.logError ("Error processing image " ++ m.group0 ++ ": " ++ e)])
  else
    (m.group0, [Effect.logWarn ("Image not found: " ++ pathStr (resolveImg mdPath raw))])

/-- Embedding of the inner `process_image` callback (lines 149-178).
`hexd` models `lambda x: hashlib.md5(x.encode()).hexdigest()` (an external
collaborator); the source truncates its result to 8 characters.  The two
exceptions that can occur in the model — `unquote(None)` raising `TypeError`
when a pattern with more or fewer than two groups leaves `group(1)` unset,
and `relative_to` raising `ValueError` — are caught by the callback's
`except`, which logs an error and returns the original matched text. -/
def process_image (hexd : String → String) (fs : List String)
    (mdPath orgPath imageDir : PyPath) (m : ReMatch) : String × List Effect :=
  match (imgPathSel m).1 with
  | Option.none =>
    (m.group0, [Effect.logError ("Error processing image " ++ m.group0 ++
      ": argument of type 'NoneType' is not iterable")])
  | some raw => processFound hexd fs mdPath orgPath imageDir m raw (imgPathSel m).2

/-- Embedding of `process_image_links` (lines 130-184): the three patterns
are applied sequentially over the whole body, each via `re.sub` with the
`process_image` callback. -/
def process_image_links (hexd : String → String) (fs : List String)
    (content : String) (mdPath orgPath imageDir : PyPath) : String × List Effect :=
  let repl := process_image hexd fs mdPath orgPath imageDir
  let s1 := reSub matchBang repl content
  let s2 := reSub matchImgTag repl s1.1
  let s3 := reSub matchWiki repl s2.1
  (s3.1, s1.2 ++ s2.2 ++ s3.2)

/-- Lowercase hex digit (the alphabet of `hexdigest()`), by code point. -/
def isHexDig (c : Char) : Bool :=
  (48 ≤ c.toNat && c.toNat ≤ 57) || (97 ≤ c.toNat && c.toNat ≤ 102)

/-- Models the behavior of PyYAML `safe_load` on the concrete front-matter
blocks used in the instance theorems below: `hello` is a plain YAML scalar
loading as the string `"hello"`; `---\nfoo` starts with a document marker,
so it loads as the document's scalar `"foo"`; `\x7b` (an opening brace) is
an unterminated flow mapping and raises a `YAMLError`; `title: Test` loads
as a one-entry mapping.  Everything else is irrelevant to the theorems and
maps to `None`. -/
def yamlStub : String → Except String PyVal := fun s =>
  if s = "hello" then Except.ok (PyVal.pystr "hello")
  else if s = "---\nfoo" then Except.ok (PyVal.pystr "foo")
  else if s = "\x7b" then Except.error "while parsing a flow node, expected the node content, but found end of stream"
  else if s = "title: Test" then Except.ok (PyVal.pydict [("title", PyVal.pystr "Test")])
  else Except.ok PyVal.pynone

theorem foldl_lines (kvs : List (String × PyVal)) (acc : List String) :
    kvs.foldl (fun lines kv =>
      match orgLine kv with
      | some s => lines ++ [s]
      | Option.none => lines) acc = acc ++ kvs.filterMap orgLine := by
  induction kvs generalizing acc with
  | nil => simp
  | cons kv rest ih =>
    simp only [List.foldl_cons, List.filterMap_cons]
    cases h : orgLine kv <;> simp [h, ih]

theorem filter_map_eq_filterMap (vs : List PyVal) :
    ((vs.filter (fun v => ! isNoneVal v)).map pyStr) =
      vs.filterMap (fun v => if isNoneVal v then Option.none else some (pyStr v)) := by
  induction vs with
  | nil => rfl
  | cons v rest ih => cases hv : isNoneVal v <;> simp [List.filter_cons, hv, ih]

theorem fmtValue_eq_spec (v : PyVal) : fmtValue v = specRenderValue v := by
  cases v <;> simp [fmtValue, specRenderValue, dtStrftime, filter_map_eq_filterMap]

theorem orgKey_empty_iff (k : String) : (orgKey k = "") ↔ (k = "") := by
  rw [String.ext_iff, String.ext_iff]
  show k.data.map _ = [] ↔ k.data = []
  exact List.map_eq_nil_iff

theorem orgLine_eq_spec (kv : String × PyVal) : orgLine kv = specPropertyLine kv.1 kv.2 := by
  unfold orgLine specPropertyLine
  cases hn : isNoneVal kv.2
  · simp only [Bool.false_eq_true, if_false]
    rw [← fmtValue_eq_spec]
    by_cases hk : kv.1 = ""
    · simp [hk, (orgKey_empty_iff "").2 rfl]
    · have hk2 : ¬ orgKey kv.1 = "" := fun h => hk ((orgKey_empty_iff kv.1).1 h)
      by_cases hv : fmtValue kv.2 = "" <;> simp [hk, hk2, hv]
  · simp

/-- Claim C8: for every metadata mapping, the formatter emits the opening
marker, then one line per non-null key rendered as `:KEY: value` with the
key upper-cased and spaces replaced by underscores, list values joined by
single spaces with null elements dropped, date values rendered as
`YYYY-MM-DD HH:MM:SS`, keys or values that render empty skipped, then the
closing marker; an empty mapping yields exactly the open marker immediately
followed by the close marker. -/
theorem format_org_metadata_c8 :
    (∀ kvs : List (String × PyVal),
      format_org_metadata (PyVal.pydict kvs) =
        String.intercalate "\n"
          ([":PROPERTIES:"] ++ kvs.filterMap (fun kv => specPropertyLine kv.1 kv.2) ++
            [":END:\n"]))
    ∧ format_org_metadata (PyVal.pydict []) = ":PROPERTIES:\n:END:\n" := by
  refine ⟨fun kvs => ?_, rfl⟩
  show String.intercalate "\n"
    ((kvs.foldl (fun lines kv =>
      match orgLine kv with
      | some s => lines ++ [s]
      | Option.none => lines) [":PROPERTIES:"]) ++ [":END:\n"]) = _
  rw [foldl_lines]
  have h : orgLine = fun kv : String × PyVal => specPropertyLine kv.1 kv.2 :=
    funext orgLine_eq_spec
  rw [h]

theorem updateAssoc_map_fst (l : List (String × PyVal)) (k : String) (v : PyVal) :
    (updateAssoc l k v).map Prod.fst = l.map Prod.fst := by
  induction l with
  | nil => rfl
  | cons kv rest ih =>
    obtain ⟨k0, v0⟩ := kv
    by_cases h : k0 = k <;> simp [updateAssoc, h, ih]

theorem ensureStep_map_fst (acc : List (String × PyVal)) (kv : String × PyVal) :
    (ensureStep acc kv).map Prod.fst = acc.map Prod.fst := by
  unfold ensureStep
  cases h : lookupAssoc acc kv.1 <;> simp [updateAssoc_map_fst]

theorem foldl_ensureStep_map_fst (kvs : List (String × PyVal)) (acc : List (String × PyVal)) :
    (kvs.foldl ensureStep acc).map Prod.fst = acc.map Prod.fst := by
  induction kvs generalizing acc with
  | nil => rfl
  | cons kv rest ih => simp [List.foldl_cons, ih, ensureStep_map_fst]

theorem lookupAssoc_eq_none_of_not_mem (l : List (String × PyVal)) (k : String)
    (h : k ∉ l.map Prod.fst) : lookupAssoc l k = Option.none := by
  induction l with
  | nil => rfl
  | cons kv rest ih =>
    obtain ⟨k0, v0⟩ := kv
    simp only [List.map_cons, List.mem_cons] at h
    push_neg at h
    have hne : ¬ k0 = k := fun he => h.1 he.symm
    simp [lookupAssoc, hne, ih h.2]

theorem lookupAssoc_updateAssoc_ne (l : List (String × PyVal)) (k k' : String) (v : PyVal)
    (h : k' ≠ k) : lookupAssoc (updateAssoc l k v) k' = lookupAssoc l k' := by
  induction l with
  | nil => rfl
  | cons kv rest ih =>
    obtain ⟨k0, v0⟩ := kv
    by_cases hk : k0 = k
    · subst hk
      have hne : k0 ≠ k' := fun he => h (he.symm)
      simp [updateAssoc, lookupAssoc, hne, ih]
    · by_cases hk' : k0 = k' <;> simp [updateAssoc, lookupAssoc, hk, hk', h, ih]

theorem ensureStep_lookup_ne (acc : List (String × PyVal)) (kv : String × PyVal) (k : String)
    (h : k ≠ kv.1) : lookupAssoc (ensureStep acc kv) k = lookupAssoc acc k := by
  unfold ensureStep
  cases hcur : lookupAssoc acc kv.1
  · rfl
  · exact lookupAssoc_updateAssoc_ne _ _ _ _ h

theorem foldl_ensureStep_lookup_not_mem (kvs acc : List (String × PyVal)) (k : String)
    (h : k ∉ kvs.map Prod.fst) :
    lookupAssoc (kvs.foldl ensureStep acc) k = lookupAssoc acc k := by
  induction kvs generalizing acc with
  | nil => rfl
  | cons kv rest ih =>
    simp only [List.map_cons, List.mem_cons] at h
    push_neg at h
    simp only [List.foldl_cons]
    rw [ih _ h.2, ensureStep_lookup_ne _ _ _ h.1]

theorem lookupAssoc_updateAssoc_self (l : List (String × PyVal)) (k : String) (v : PyVal) :
    lookupAssoc (updateAssoc l k v) k = (lookupAssoc l k).map (fun _ => v) := by
  induction l with
  | nil => rfl
  | cons kv rest ih =>
    obtain ⟨k0, v0⟩ := kv
    by_cases hk : k0 = k <;> simp [updateAssoc, lookupAssoc, hk, ih]

theorem foldl_ensureStep_lookup (kvs : List (String × PyVal)) (acc : List (String × PyVal))
    (hnd : (kvs.map Prod.fst).Nodup)
    (hacc : ∀ k, k ∈ kvs.map Prod.fst → lookupAssoc acc k = lookupAssoc DEFAULT_METADATA k)
    (k : String) (v : PyVal) (hv : lookupAssoc kvs k = some v) :
    lookupAssoc (kvs.foldl ensureStep acc) k =
      match lookupAssoc DEFAULT_METADATA k with
      | some d => some (coerceField d v)
      | Option.none => lookupAssoc acc k := by
  induction kvs generalizing acc with
  | nil => simp [lookupAssoc] at hv
  | cons kv rest ih =>
    obtain ⟨k0, v0⟩ := kv
    simp only [List.map_cons, List.nodup_cons] at hnd
    simp only [List.foldl_cons]
    by_cases hk : k0 = k
    · subst hk
      rw [lookupAssoc, if_pos rfl] at hv
      injection hv with hv0
      subst hv0
      rw [foldl_ensureStep_lookup_not_mem rest _ k0 hnd.1]
      have hcur := hacc k0 (by simp)
      cases hd : lookupAssoc DEFAULT_METADATA k0 with
      | none =>
        have h0 : lookupAssoc acc k0 = Option.none := hcur.trans hd
        simp [ensureStep, h0]
      | some d =>
        have h0 : lookupAssoc acc k0 = some d := hcur.trans hd
        simp [ensureStep, h0, lookupAssoc_updateAssoc_self]
    · have hv' : lookupAssoc rest k = some v := by
        rw [lookupAssoc, if_neg hk] at hv
        exact hv
      have hacc' : ∀ k', k' ∈ rest.map Prod.fst →
          lookupAssoc (ensureStep acc (k0, v0)) k' = lookupAssoc DEFAULT_METADATA k' := by
        intro k' hk'
        have hne : k' ≠ (k0, v0).1 := fun he => hnd.1 (by simpa [he] using hk')
        rw [ensureStep_lookup_ne _ _ _ hne]
        exact hacc k' (by simp [hk'])
      rw [ih _ hnd.2 hacc' hv']
      cases hd : lookupAssoc DEFAULT_METADATA k
      · exact ensureStep_lookup_ne _ _ _ (fun he => hk he.symm)
      · rfl

theorem ensure_metadata_keys (m : PyVal) :
    (ensure_metadata m).map Prod.fst = ["title", "created", "modified", "type", "tags"] := by
  cases m <;> simp [ensure_metadata, foldl_ensureStep_map_fst, DEFAULT_METADATA]

/-- Claim C6: normalization always returns a mapping whose key list is
exactly the five default keys; a non-list input value for the list-typed
`tags` key is wrapped into a singleton list (a falsy value into the empty
list); keys outside the default set are dropped. -/
theorem ensure_metadata_c6 (m : PyVal) :
    ((ensure_metadata m).map Prod.fst = ["title", "created", "modified", "type", "tags"])
    ∧ (∀ kvs, m = PyVal.pydict kvs → (kvs.map Prod.fst).Nodup →
        ∀ v, lookupAssoc kvs "tags" = some v → isListVal v = false →
          lookupAssoc (ensure_metadata m) "tags" =
            some (if pyTruthy v then PyVal.pylist [v] else PyVal.pylist []))
    ∧ (∀ k, k ∉ ["title", "created", "modified", "type", "tags"] →
        lookupAssoc (ensure_metadata m) k = Option.none) := by
  refine ⟨ensure_metadata_keys m, ?_, ?_⟩
  · rintro kvs rfl hnd v hv hnl
    show lookupAssoc (kvs.foldl ensureStep DEFAULT_METADATA) "tags" = _
    rw [foldl_ensureStep_lookup kvs DEFAULT_METADATA hnd (fun k _ => rfl) "tags" v hv]
    show some (coerceField (PyVal.pylist []) v) = _
    have hc : coerceField (PyVal.pylist []) v =
        if pyTruthy v then PyVal.pylist [v] else PyVal.pylist [] := by
      unfold coerceField
      rw [hnl]
      rfl
    rw [hc]
  · intro k hk
    apply lookupAssoc_eq_none_of_not_mem
    rw [ensure_metadata_keys m]
    exact hk

/-- Witness for C6 at a concrete input: a scalar `tags` value is wrapped,
all five keys are present, and the unknown key `junk` is dropped. -/
theorem ensure_metadata_c6_witness :
    lookupAssoc (ensure_metadata (PyVal.pydict
        [("tags", PyVal.pystr "x"), ("junk", PyVal.pyint 1)])) "tags"
      = some (PyVal.pylist [PyVal.pystr "x"])
    ∧ (ensure_metadata (PyVal.pydict
        [("tags", PyVal.pystr "x"), ("junk", PyVal.pyint 1)])).map Prod.fst
      = ["title", "created", "modified", "type", "tags"]
    ∧ lookupAssoc (ensure_metadata (PyVal.pydict
        [("tags", PyVal.pystr "x"), ("junk", PyVal.pyint 1)])) "junk"
      = Option.none := by
  have h := ensure_metadata_c6 (PyVal.pydict [("tags", PyVal.pystr "x"), ("junk", PyVal.pyint 1)])
  refine ⟨?_, h.1, ?_⟩
  · have h2 := h.2.1 _ rfl (by decide) (PyVal.pystr "x") rfl rfl
    rw [h2]
    rfl
  · exact h.2.2 "junk" (by decide)

/-- Counterexample for C2 as stated: the front-matter block of
`---\nhello\n---\nbody` parses (per PyYAML, modelled by `yamlStub`) to the
non-mapping scalar `"hello"`, and extraction returns
`({'content': 'hello'}, "body")` — not the empty mapping, and not the
original text. -/
theorem extract_metadata_c2_cex :
    extract_metadata yamlStub "---\nhello\n---\nbody"
      = ([("content", PyVal.pystr "hello")], "body", [])
    ∧ (extract_metadata yamlStub "---\nhello\n---\nbody").1 ≠ []
    ∧ (extract_metadata yamlStub "---\nhello\n---\nbody").2.1 ≠ "---\nhello\n---\nbody" := by
  have h : extract_metadata yamlStub "---\nhello\n---\nbody"
      = ([("content", PyVal.pystr "hello")], "body", []) := rfl
  refine ⟨h, ?_, ?_⟩
  · rw [h]
    simp
  · rw [h]
    decide

/-- Claim C2 (amended): when the leading triple-dash block matches, a parse
failure (`YAMLError`) returns the empty mapping with the original text
unchanged and records a warning, without raising; a block parsing to a
TRUTHY NON-MAPPING value instead returns `({'content': str(value)}, text
after the block)`; a falsy parse result returns the empty mapping with the
text after the block. -/
theorem extract_metadata_c2 (parse : String → Except String PyVal) (text g rest : String)
    (hm : yamlMatchS text = some (g, rest)) :
    (∀ e, parse g = Except.error e →
      extract_metadata parse text =
        ([], text, [Effect.logWarn ("YAML parsing error: " ++ e)]))
    ∧ (∀ v, parse g = Except.ok v → pyTruthy v = true → isDictVal v = false →
      extract_metadata parse text = ([("content", PyVal.pystr (pyStr v))], rest, []))
    ∧ (∀ v, parse g = Except.ok v → pyTruthy v = false →
      extract_metadata parse text = ([], rest, [])) := by
  have hbase : extract_metadata parse text = extractAfter (parse g) text rest := by
    unfold extract_metadata
    rw [hm]
  refine ⟨?_, ?_, ?_⟩
  · intro e hp
    rw [hbase, hp]
    rfl
  · intro v hp ht hd
    rw [hbase, hp]
    simp only [extractAfter]
    rw [if_pos ht]
    cases v <;> first
      | rfl
      | (simp [isDictVal] at hd)
  · intro v hp hf
    rw [hbase, hp]
    simp [extractAfter, hf]

/-- Witness for C2 (amended) at concrete inputs: a malformed block (a lone
`\x7b`) yields the empty mapping, the original text and a warning; the
non-mapping block `hello` yields the `content` wrapping. -/
theorem extract_metadata_c2_witness :
    extract_metadata yamlStub "---\n\x7b\n---\nbody" =
      ([], "---\n\x7b\n---\nbody",
       [Effect.logWarn ("YAML parsing error: while parsing a flow node, expected the node content, but found end of stream")])
    ∧ extract_metadata yamlStub "---\nhello\n---\nbody" =
      ([("content", PyVal.pystr "hello")], "body", []) := by
  have h1 := (extract_metadata_c2 yamlStub "---\n\x7b\n---\nbody" "\x7b" "body" rfl).1
    "while parsing a flow node, expected the node content, but found end of stream" rfl
  have h2 := (extract_metadata_c2 yamlStub "---\nhello\n---\nbody" "hello" "body" rfl).2.1
    (PyVal.pystr "hello") rfl rfl rfl
  exact ⟨h1, h2⟩

theorem closeHere_eq_none (l : List Char)
    (h : startsWithL [ '\n', '-', '-', '-' ] l = false) :
    closeHere l = Option.none := by
  unfold closeHere
  rw [h]
  rfl

theorem lazyClose_eq_none (l : List Char)
    (h : containsSub [ '\n', '-', '-', '-' ] l = false) :
    ∀ acc, lazyClose acc l = Option.none := by
  induction l with
  | nil => intro acc; rfl
  | cons c cs ih =>
    intro acc
    rw [containsSub] at h
    rw [Bool.or_eq_false_iff] at h
    unfold lazyClose
    rw [closeHere_eq_none _ h.1]
    exact ih h.2 (c :: acc)

theorem tryFirstWs_one_nl (l : List Char) (h : l.getD 0 ' ' = '\n')
    (h2 : lazyClose [] (l.drop 1) = Option.none) : tryFirstWs l 1 = Option.none := by
  unfold tryFirstWs
  rw [if_pos h, h2]
  rfl

/-- Claim C10 (amended): a text beginning with the empty front-matter block
`---\n---\n` is not recognized — extraction returns the empty mapping and
the full original text — PROVIDED the remainder neither begins with `---`
nor contains `\n---` anywhere.  Without that proviso the DOTALL lazy group
can match across the second delimiter line (see the counterexample). -/
theorem extract_metadata_c10 (parse : String → Except String PyVal) (rest : String)
    (h1 : startsWithL [ '-', '-', '-' ] rest.toList = false)
    (h2 : containsSub [ '\n', '-', '-', '-' ] rest.toList = false) :
    extract_metadata parse ("---\n---\n" ++ rest) =
      ([], "---\n---\n" ++ rest, []) := by
  have hdata : ("---\n---\n" ++ rest).toList =
      '-' :: '-' :: '-' :: '\n' :: '-' :: '-' :: '-' :: '\n' :: rest.toList := by
    cases rest with
    | mk data => rfl
  have hcs : containsSub [ '\n', '-', '-', '-' ]
      ( '-' :: '-' :: '-' :: '\n' :: rest.toList) = false := by
    rw [containsSub, containsSub, containsSub, containsSub]
    rw [Bool.or_eq_false_iff, Bool.or_eq_false_iff, Bool.or_eq_false_iff,
      Bool.or_eq_false_iff]
    refine ⟨rfl, rfl, rfl, ?_, h2⟩
    rw [show startsWithL [ '\n', '-', '-', '-' ] ( '\n' :: rest.toList) =
      startsWithL [ '-', '-', '-' ] rest.toList from by simp [startsWithL]]
    exact h1
  have hmatch : yamlMatch ("---\n---\n" ++ rest).toList = Option.none := by
    rw [hdata]
    show tryFirstWs ('\n' :: '-' :: '-' :: '-' :: '\n' :: rest.toList) 1 = Option.none
    exact tryFirstWs_one_nl _ rfl (lazyClose_eq_none _ hcs [])
  unfold extract_metadata yamlMatchS
  rw [hmatch]

/-- Witness for C10 (amended) at a concrete input: the empty block followed
by plain body text is returned unchanged with the empty mapping. -/
theorem extract_metadata_c10_witness :
    extract_metadata yamlStub "---\n---\nbody" = ([], "---\n---\nbody", []) := by
  have h := extract_metadata_c10 yamlStub "body" (by decide) (by decide)
  exact h

/-- Counterexample for C10 as stated: the claim quantifies over EVERY text
beginning with `---\n---\n`, but on `---\n---\nfoo\n---\nbar` the lazy
DOTALL group matches `---\nfoo` (PyYAML loads it as the scalar `"foo"`, per
`yamlStub`), so extraction returns `({'content': 'foo'}, "bar")` rather
than the empty mapping with the original text. -/
theorem extract_metadata_c10_cex :
    extract_metadata yamlStub "---\n---\nfoo\n---\nbar"
      = ([("content", PyVal.pystr "foo")], "bar", [])
    ∧ (extract_metadata yamlStub "---\n---\nfoo\n---\nbar").2.1
      ≠ "---\n---\nfoo\n---\nbar" := by
  refine ⟨rfl, ?_⟩
  decide

/-- Counterexample for C5 as stated: with a single file whose conversion
fails (`convert_file` returns `False`), the driver's loop performs no
console print at all — the file completed, but no `success/total` progress
line appears, because the `print` is inside `if convert_file(...)`. -/
theorem driverLoop_c5_cex : driverLoop 1 0 [Except.ok false] = (0, []) := rfl

/-- Claim C5 (amended): the driver prints the running `success/total`
progress line exactly once per SUCCESSFUL file — the i-th success prints
`Progress: {i}/{total} files processed` — and a file that fails or raises
produces no progress line (its effect, if any, is only an error log). -/
theorem driverLoop_c5 (total : Nat) (ocs : List (Except String Bool)) : ∀ succ,
    printedLines (driverLoop total succ ocs).2 =
      (List.range (ocs.countP isOkTrue)).map (fun i => progressMsg (succ + i + 1) total)
    ∧ (driverLoop total succ ocs).1 = succ + ocs.countP isOkTrue := by
  induction ocs with
  | nil => intro succ; simp [driverLoop, printedLines]
  | cons oc rest ih =>
    intro succ
    cases oc with
    | error e =>
      have h := ih succ
      refine ⟨?_, ?_⟩
      · show printedLines (Effect.logError ("Error processing " ++ e) ::
          (driverLoop total succ rest).2) = _
        rw [show printedLines (Effect.logError ("Error processing " ++ e) ::
          (driverLoop total succ rest).2) = printedLines (driverLoop total succ rest).2
          from rfl]
        rw [h.1, List.countP_cons]
        rfl
      · show (driverLoop total succ rest).1 = _
        rw [h.2, List.countP_cons]
        rfl
    | ok b =>
      cases b with
      | false =>
        have h := ih succ
        refine ⟨?_, ?_⟩
        · show printedLines (driverLoop total succ rest).2 = _
          rw [h.1, List.countP_cons]
          rfl
        · show (driverLoop total succ rest).1 = _
          rw [h.2, List.countP_cons]
          rfl
      | true =>
        have h := ih (succ + 1)
        have hc : (Except.ok true :: rest).countP isOkTrue = rest.countP isOkTrue + 1 := by
          rw [List.countP_cons]
          rfl
        refine ⟨?_, ?_⟩
        · show progressMsg (succ + 1) total ::
            printedLines (driverLoop total (succ + 1) rest).2 = _
          rw [h.1, hc, List.range_succ_eq_map, List.map_cons, List.map_map]
          refine congrArg₂ _ (by simp) ?_
          apply List.map_congr_left
          intro a _
          show progressMsg (succ + 1 + a + 1) total = progressMsg (succ + (a + 1) + 1) total
          congr 1
          omega
        · show (driverLoop total (succ + 1) rest).1 = _
          rw [h.2, hc]
          omega

/-- Claim C9: a wrong argument count prints the usage message and exits
with status 1; a missing source directory logs an error and exits 1 without
any directory creation; an existing source directory with no markdown files
creates the destination, warns, and exits with status 0. -/
theorem main_c9 :
    (∀ argv : List String, argv.length ≠ 3 →
      mainGuard argv = some ([Effect.print usageMsg], 1))
    ∧ (∀ src dst files, mainChecks src dst false files =
        ([Effect.logError ("Source directory not found: " ++ src)], some 1)
        ∧ ∀ d, Effect.mkdirP d ∉ (mainChecks src dst false files).1)
    ∧ (∀ src dst, mainChecks src dst true [] =
        ([Effect.mkdirP dst, Effect.logWarn ("No markdown files found in " ++ src)],
         some 0)) := by
  refine ⟨?_, ?_, ?_⟩
  · intro argv h
    simp [mainGuard, h]
  · intro src dst files
    refine ⟨rfl, ?_⟩
    intro d hd
    simp [mainChecks] at hd
  · intro src dst
    rfl

/-- Witness for C9 at concrete inputs. -/
theorem main_c9_witness :
    mainGuard ["trilium-md2org.py"] = some ([Effect.print usageMsg], 1)
    ∧ mainChecks "/src" "/dst" false [] =
        ([Effect.logError "Source directory not found: /src"], some 1)
    ∧ mainChecks "/src" "/dst" true [] =
        ([Effect.mkdirP "/dst", Effect.logWarn "No markdown files found in /src"],
         some 0) := by
  have h := main_c9
  exact ⟨h.1 ["trilium-md2org.py"] (by decide),
    (h.2.1 "/src" "/dst" []).1,
    h.2.2 "/src" "/dst"⟩

theorem process_image_eq_some (hexd : String → String) (fs : List String)
    (mdPath orgPath imageDir : PyPath) (m : ReMatch) (raw : String)
    (hsel : (imgPathSel m).1 = some raw) :
    process_image hexd fs mdPath orgPath imageDir m =
      processFound hexd fs mdPath orgPath imageDir m raw (imgPathSel m).2 := by
  unfold process_image
  rw [hsel]

theorem process_image_eq_none (hexd : String → String) (fs : List String)
    (mdPath orgPath imageDir : PyPath) (m : ReMatch)
    (hsel : (imgPathSel m).1 = Option.none) :
    process_image hexd fs mdPath orgPath imageDir m =
      (m.group0, [Effect.logError ("Error processing image " ++ m.group0 ++
        ": argument of type 'NoneType' is not iterable")]) := by
  unfold process_image
  rw [hsel]

theorem toList_append (a b : String) : (a ++ b).toList = a.toList ++ b.toList := by
  cases a
  cases b
  rfl

theorem isPrefixOf_append_self (l extra : List String) :
    l.isPrefixOf (l ++ extra) = true := by
  induction l with
  | nil => simp [List.isPrefixOf]
  | cons a as ih => simp [List.isPrefixOf, ih]

theorem relativeTo_append (base : PyPath) (extra : List String) :
    PyPath.relativeTo (PyPath.mk base.absolute (base.parts ++ extra)) base =
      Except.ok (PyPath.mk false extra) := by
  unfold PyPath.relativeTo
  rw [if_pos ⟨rfl, isPrefixOf_append_self base.parts extra⟩]
  rw [show (PyPath.mk base.absolute (base.parts ++ extra)).parts = base.parts ++ extra
    from rfl]
  rw [List.drop_left]

theorem joinStr_rel (p : PyPath) (s : String) (h : (pathParse s).absolute = false) :
    p.joinStr s = PyPath.mk p.absolute (p.parts ++ (pathParse s).parts) := by
  simp [PyPath.joinStr, h]

theorem imageDestName_not_abs (hexd : String → String) (src : PyPath)
    (h : (hexd (pathStr src)).length = 32)
    (h2 : ((hexd (pathStr src)).toList.all isHexDig) = true) :
    (pathParse (imageDestName hexd src)).absolute = false := by
  have hl : (imageDestName hexd src).toList =
      ((hexd (pathStr src)).toList.take 8 ++ "_".toList) ++ src.name.toList := by
    unfold imageDestName strTake
    rw [toList_append, toList_append]
    rfl
  have hlen32 : (hexd (pathStr src)).toList.length = 32 := h
  unfold pathParse
  rw [hl]
  cases hx : (hexd (pathStr src)).toList with
  | nil =>
    rw [hx] at hlen32
    exact absurd hlen32 (by decide)
  | cons c cs =>
    have hmem : c ∈ (hexd (pathStr src)).toList := by
      rw [hx]
      exact List.mem_cons_self c cs
    have hc : isHexDig c = true := List.all_eq_true.mp h2 c hmem
    have hcne : c ≠ '/' := by
      intro he
      rw [he] at hc
      exact absurd hc (by decide)
    simp [List.take_succ_cons, hcne]

/-- Claim C4: for every match whose selected path resolves to an existing
file, with the image directory `org_parent / images` as `convert_file` sets
it up (line 207), the rewriter copies the resolved source to
`image_dir / {first 8 chars of md5-hexdigest of the resolved path
string}_{source filename}` and rewrites the match to a `[[file:REL][alt]]`
link, `REL` being the copy's path relative to the destination document's
parent and `alt` the match's alt text.  The destination name is a function
of the resolved path string alone (the model's `hexd` consumes only
`pathStr`), its hash prefix has exactly 8 hex characters given the
documented shape of `hexdigest()` (32 lowercase hex characters, `hHex`). -/
theorem process_image_c4 (hexd : String → String) (fs : List String)
    (mdPath orgPath : PyPath) (m : ReMatch) (raw : String)
    (hHex : ∀ s, (hexd s).length = 32 ∧ ((hexd s).toList.all isHexDig) = true)
    (hsel : (imgPathSel m).1 = some raw)
    (hfile : isFile fs (resolveImg mdPath raw) = true) :
    process_image hexd fs mdPath orgPath (orgPath.parent.joinStr "images") m =
      ("[[file:" ++ pathStr (PyPath.mk false
          ("images" :: splitPath (imageDestName hexd (resolveImg mdPath raw)))) ++
        "][" ++ (imgPathSel m).2 ++ "]]",
       [Effect.mkdirP (pathStr (orgPath.parent.joinStr "images")),
        Effect.copy2 (pathStr (resolveImg mdPath raw))
          (pathStr ((orgPath.parent.joinStr "images").joinStr
            (imageDestName hexd (resolveImg mdPath raw)))),
        Effect.logInfo ("Copied image: " ++ pathStr (resolveImg mdPath raw) ++ " -> " ++
          pathStr ((orgPath.parent.joinStr "images").joinStr
            (imageDestName hexd (resolveImg mdPath raw))))])
    ∧ ((orgPath.parent.joinStr "images").joinStr
        (imageDestName hexd (resolveImg mdPath raw))).relativeTo orgPath.parent =
      Except.ok (PyPath.mk false
        ("images" :: splitPath (imageDestName hexd (resolveImg mdPath raw))))
    ∧ imageDestName hexd (resolveImg mdPath raw) =
        strTake (hexd (pathStr (resolveImg mdPath raw))) 8 ++ "_" ++
          (resolveImg mdPath raw).name
    ∧ (strTake (hexd (pathStr (resolveImg mdPath raw))) 8).length = 8
    ∧ ((strTake (hexd (pathStr (resolveImg mdPath raw))) 8).toList.all isHexDig)
      = true := by
  have h8 := hHex (pathStr (resolveImg mdPath raw))
  have hna : (pathParse (imageDestName hexd (resolveImg mdPath raw))).absolute = false :=
    imageDestName_not_abs hexd (resolveImg mdPath raw) h8.1 h8.2
  have hims : (pathParse "images").parts = ["images"] := rfl
  have hdst : (orgPath.parent.joinStr "images").joinStr
      (imageDestName hexd (resolveImg mdPath raw)) =
      PyPath.mk orgPath.parent.absolute (orgPath.parent.parts ++
        ("images" :: splitPath (imageDestName hexd (resolveImg mdPath raw)))) := by
    rw [joinStr_rel orgPath.parent "images" rfl, hims]
    rw [joinStr_rel _ _ hna]
    rw [show (pathParse (imageDestName hexd (resolveImg mdPath raw))).parts =
      splitPath (imageDestName hexd (resolveImg mdPath raw)) from rfl]
    rw [show (PyPath.mk orgPath.parent.absolute (orgPath.parent.parts ++ ["images"])).absolute
      = orgPath.parent.absolute from rfl]
    rw [show (PyPath.mk orgPath.parent.absolute (orgPath.parent.parts ++ ["images"])).parts
      = orgPath.parent.parts ++ ["images"] from rfl]
    rw [List.append_assoc]
    rfl
  have hrel : ((orgPath.parent.joinStr "images").joinStr
      (imageDestName hexd (resolveImg mdPath raw))).relativeTo orgPath.parent =
      Except.ok (PyPath.mk false
        ("images" :: splitPath (imageDestName hexd (resolveImg mdPath raw)))) := by
    rw [hdst]
    exact relativeTo_append orgPath.parent _
  refine ⟨?_, hrel, rfl, ?_, ?_⟩
  · rw [process_image_eq_some hexd fs mdPath orgPath _ m raw hsel]
    unfold processFound
    rw [if_pos hfile, hrel]
  · show (String.mk ((hexd (pathStr (resolveImg mdPath raw))).toList.take 8)).length = 8
    show ((hexd (pathStr (resolveImg mdPath raw))).toList.take 8).length = 8
    rw [List.length_take]
    rw [show (hexd (pathStr (resolveImg mdPath raw))).toList.length = 32 from h8.1]
    decide
  · show ((hexd (pathStr (resolveImg mdPath raw))).toList.take 8).all isHexDig = true
    rw [List.all_eq_true]
    intro c hc
    exact List.all_eq_true.mp h8.2 c (List.take_subset 8 _ hc)

/-- Witness for C4 at a concrete input: `![alt](pic.png)` in `/src/n.md`
with `/src/pic.png` existing is rewritten to
`[[file:images/d41d8cd9_pic.png][alt]]` and the file is copied there. -/
theorem process_image_c4_witness :
    process_image (fun _ => "d41d8cd98f00b204e9800998ecf8427e") ["/src/pic.png"]
      (pathParse "/src/n.md") (pathParse "/dst/n.org")
      ((pathParse "/dst/n.org").parent.joinStr "images")
      { group0 := "![alt](pic.png)", groups := [some "alt", some "pic.png"] } =
    ("[[file:images/d41d8cd9_pic.png][alt]]",
     [Effect.mkdirP "/dst/images",
      Effect.copy2 "/src/pic.png" "/dst/images/d41d8cd9_pic.png",
      Effect.logInfo "Copied image: /src/pic.png -> /dst/images/d41d8cd9_pic.png"]) := by
  have h := process_image_c4 (fun _ => "d41d8cd98f00b204e9800998ecf8427e") ["/src/pic.png"]
    (pathParse "/src/n.md") (pathParse "/dst/n.org")
    { group0 := "![alt](pic.png)", groups := [some "alt", some "pic.png"] } "pic.png"
    (fun _ => ⟨rfl, rfl⟩) rfl rfl
  exact h.1

/-- Claim C7: a match whose selected path resolves to a non-existent file is
left byte-for-byte unchanged with a warning logged; a match whose
processing raises — `unquote(None)` when `group(1)` is unset (wiki links
without the `file:` prefix), or `relative_to` raising `ValueError` — is
left unchanged with an error logged (effects already performed persist);
every case returns a replacement for just this match, so one match never
aborts the document. -/
theorem process_image_c7 (hexd : String → String) (fs : List String)
    (mdPath orgPath imageDir : PyPath) (m : ReMatch) :
    (∀ raw, (imgPathSel m).1 = some raw → isFile fs (resolveImg mdPath raw) = false →
      process_image hexd fs mdPath orgPath imageDir m =
        (m.group0, [Effect.logWarn ("Image not found: " ++
          pathStr (resolveImg mdPath raw))]))
    ∧ ((imgPathSel m).1 = Option.none →
      process_image hexd fs mdPath orgPath imageDir m =
        (m.group0, [Effect.logError ("Error processing image " ++ m.group0 ++
          ": argument of type 'NoneType' is not iterable")]))
    ∧ (∀ raw e, (imgPathSel m).1 = some raw → isFile fs (resolveImg mdPath raw) = true →
      (imageDir.joinStr (imageDestName hexd (resolveImg mdPath raw))).relativeTo
        orgPath.parent = Except.error e →
      process_image hexd fs mdPath orgPath imageDir m =
        (m.group0,
         [Effect.mkdirP (pathStr imageDir),
          Effect.copy2 (pathStr (resolveImg mdPath raw))
            (pathStr (imageDir.joinStr (imageDestName hexd (resolveImg mdPath raw)))),
          Effect.logInfo ("Copied image: " ++ pathStr (resolveImg mdPath raw) ++ " -> " ++
            pathStr (imageDir.joinStr (imageDestName hexd (resolveImg mdPath raw)))),
          Effect.logError ("Error processing image " ++ m.group0 ++ ": " ++ e)])) := by
  refine ⟨?_, ?_, ?_⟩
  · intro raw hsel hfile
    rw [process_image_eq_some hexd fs mdPath orgPath imageDir m raw hsel]
    unfold processFound
    rw [if_neg (by simp [hfile])]
  · intro hsel
    exact process_image_eq_none hexd fs mdPath orgPath imageDir m hsel
  · intro raw e hsel hfile hrel
    rw [process_image_eq_some hexd fs mdPath orgPath imageDir m raw hsel]
    unfold processFound
    rw [if_pos hfile, hrel]

/-- Witness for C7 at concrete inputs: a missing referenced file leaves
`![a](gone.png)` unchanged with a warning, and a wiki link without the
`file:` prefix (whose `group(1)` is `None`, so `unquote` raises `TypeError`)
is left unchanged with an error logged. -/
theorem process_image_c7_witness :
    process_image (fun _ => "d41d8cd98f00b204e9800998ecf8427e") []
      (pathParse "/src/n.md") (pathParse "/dst/n.org")
      ((pathParse "/dst/n.org").parent.joinStr "images")
      { group0 := "![a](gone.png)", groups := [some "a", some "gone.png"] } =
    ("![a](gone.png)", [Effect.logWarn "Image not found: /src/gone.png"])
    ∧ process_image (fun _ => "d41d8cd98f00b204e9800998ecf8427e") []
      (pathParse "/src/n.md") (pathParse "/dst/n.org")
      ((pathParse "/dst/n.org").parent.joinStr "images")
      { group0 := "[[gone.png]]",
        groups := [Option.none, some "gone.png", some "png"] } =
    ("[[gone.png]]",
     [Effect.logError "Error processing image [[gone.png]]: argument of type 'NoneType' is not iterable"]) := by
  have h1 := (process_image_c7 (fun _ => "d41d8cd98f00b204e9800998ecf8427e") []
    (pathParse "/src/n.md") (pathParse "/dst/n.org")
    ((pathParse "/dst/n.org").parent.joinStr "images")
    { group0 := "![a](gone.png)", groups := [some "a", some "gone.png"] }).1
    "gone.png" rfl rfl
  have h2 := (process_image_c7 (fun _ => "d41d8cd98f00b204e9800998ecf8427e") []
    (pathParse "/src/n.md") (pathParse "/dst/n.org")
    ((pathParse "/dst/n.org").parent.joinStr "images")
    { group0 := "[[gone.png]]",
      groups := [Option.none, some "gone.png", some "png"] }).2.1 rfl
  exact ⟨h1, h2⟩

/-- Claim C1 (code evidence): for the wiki-style family the rewriter does
NOT percent-decode and resolve the referenced path.  On `[[file:pic.png]]`
the pattern captures the referenced path `pic.png` in group 2, but the
callback takes `group(1)` — the optional `file:` prefix — as the path
(`len(match.groups())` is 3, not 2, so the `else` branch runs): it resolves
and existence-checks `/src/file:`, warns, and leaves the match unchanged
without copying, even though the referenced `/src/pic.png` exists. -/
theorem process_image_links_c1_bug :
    matchWiki "[[file:pic.png]]".toList =
      some ({ group0 := "[[file:pic.png]]",
              groups := [some "file:", some "pic.png", some "png"] }, [])
    ∧ (imgPathSel { group0 := "[[file:pic.png]]",
                    groups := [some "file:", some "pic.png", some "png"] }).1 =
      some "file:"
    ∧ isFile ["/src/pic.png"] (resolveImg (pathParse "/src/n.md") "pic.png") = true
    ∧ process_image_links (fun _ => "d41d8cd98f00b204e9800998ecf8427e") ["/src/pic.png"]
        "[[file:pic.png]]" (pathParse "/src/n.md") (pathParse "/dst/n.org")
        ((pathParse "/dst/n.org").parent.joinStr "images") =
      ("[[file:pic.png]]", [Effect.logWarn "Image not found: /src/file:"]) :=
  ⟨rfl, rfl, rfl, rfl⟩

/-- Sanity evaluations of the front-matter regex model against the behavior
of Python's `re` on the source pattern: a normal block, the unrecognized
empty block, the empty block followed by a later delimiter (the lazy DOTALL
group crosses the second `---` line), trailing whitespace after the
delimiters, and a non-anchored text. -/
theorem yamlMatch_examples :
    yamlMatchS "---\nhello\n---\nbody" = some ("hello", "body")
    ∧ yamlMatchS "---\n---\nbody" = Option.none
    ∧ yamlMatchS "---\n---\nfoo\n---\nbar" = some ("---\nfoo", "bar")
    ∧ yamlMatchS "---  \nt: 1\n---  \nrest" = some ("t: 1", "rest")
    ∧ yamlMatchS "x---\na\n---\nb" = Option.none :=
  ⟨rfl, rfl, rfl, rfl, rfl⟩

/-- Sanity evaluations of the three image-pattern matchers against Python's
`re`: group counts, group contents, and the greedy/lazy choices (note
`[[file:.png]]`, where the optional `file:` prefix backtracks into the path
group). -/
theorem imagePattern_examples :
    matchBang "![alt](pic.png) tail".toList =
      some ({ group0 := "![alt](pic.png)", groups := [some "alt", some "pic.png"] },
        " tail".toList)
    ∧ matchImgTag "<img src=\"a.png\" width=3> t".toList =
      some ({ group0 := "<img src=\"a.png\" width=3>", groups := [some "a.png"] },
        " t".toList)
    ∧ matchWiki "[[file:pic.png]]x".toList =
      some ({ group0 := "[[file:pic.png]]",
              groups := [some "file:", some "pic.png", some "png"] }, "x".toList)
    ∧ matchWiki "[[pic.jpeg]]".toList =
      some ({ group0 := "[[pic.jpeg]]",
              groups := [Option.none, some "pic.jpeg", some "jpeg"] }, [])
    ∧ matchWiki "[[file:.png]]".toList =
      some ({ group0 := "[[file:.png]]",
              groups := [Option.none, some "file:.png", some "png"] }, []) :=
  ⟨rfl, rfl, rfl, rfl, rfl⟩

/-- End-to-end happy path of the rewriter through `re.sub`: an inline image
reference to an existing file inside surrounding text is rewritten in place
and the copy effects are performed. -/
theorem process_image_links_example :
    process_image_links (fun _ => "0123456789abcdef0123456789abcdef") ["/src/pic.png"]
      "a ![alt](pic.png) b" (pathParse "/src/n.md") (pathParse "/dst/n.org")
      ((pathParse "/dst/n.org").parent.joinStr "images") =
    ("a [[file:images/01234567_pic.png][alt]] b",
     [Effect.mkdirP "/dst/images",
      Effect.copy2 "/src/pic.png" "/dst/images/01234567_pic.png",
      Effect.logInfo "Copied image: /src/pic.png -> /dst/images/01234567_pic.png"]) := rfl
